import Mathlib

/-!
Verification of the Nebula account vault and session-injection launcher.

The development shallowly embeds the JavaScript source files
(auth-launch-service.js, auth-service.js, main.js and the unnamed parts)
into Lean.  Parsed YAML and JSON documents are modelled by the inductive
type YVal; JavaScript objects with optional fields become structures with
Option fields; stateful operations are modelled by explicit state passing
and effect traces.  The yaml library stringify/parse pair is treated as
the identity on structured documents, so the codec round trip composes
the structure builder with the extractor directly.
-/

namespace Nebula

/-- Model of a parsed YAML (or JSON) value: null, string, boolean,
sequence or mapping.  JavaScript `undefined` is conflated with null. -/
inductive YVal where
  | vnull : YVal
  | vstr : String → YVal
  | vbool : Bool → YVal
  | vseq : List YVal → YVal
  | vmap : List (String × YVal) → YVal

/-- First binding of a key in an association list (JavaScript object
property lookup; object keys are unique). -/
def lookupStr : List (String × YVal) → String → Option YVal
  | [], _ => none
  | (k, v) :: rest, q => if k = q then some v else lookupStr rest q

/-- JavaScript property access `o.k`: a lookup on objects, undefined on
every other value (including null, which is only reached behind the
optional-chaining guard in the source). -/
def YVal.getKey : YVal → String → Option YVal
  | YVal.vmap kvs, q => lookupStr kvs q
  | _, _ => none

/-- Optional chaining `o?.k`: short-circuits an absent intermediate. -/
def optGetKey (o : Option YVal) (q : String) : Option YVal :=
  match o with
  | some y => y.getKey q
  | none => none

/-- JavaScript truthiness of a value: null/undefined and the empty string
are falsy, objects and arrays are truthy. -/
def YVal.truthy : YVal → Bool
  | YVal.vnull => false
  | YVal.vstr s => !s.isEmpty
  | YVal.vbool b => b
  | YVal.vseq _ => true
  | YVal.vmap _ => true

/-- Truthiness of a possibly-absent value (undefined is falsy). -/
def truthyO : Option YVal → Bool
  | some v => v.truthy
  | none => false

/-- Whether a value is null (property access on it would throw). -/
def YVal.isNull : YVal → Bool
  | YVal.vnull => true
  | _ => false

/-- Whether a value is a sequence (Array.isArray). -/
def YVal.isSeq : YVal → Bool
  | YVal.vseq _ => true
  | _ => false

/-- JavaScript string coercion used when a value becomes an object key
(`cookies[cookie.name]`); inSeq marks elements of an array join, where
null coerces to the empty string instead of "null". -/
def jsToStringAux (inSeq : Bool) (y : YVal) : String :=
  match y with
  | YVal.vnull => cond inSeq "" "null"
  | YVal.vstr s => s
  | YVal.vbool b => cond b "true" "false"
  | YVal.vmap _ => "[object Object]"
  | YVal.vseq xs => String.intercalate "," (xs.attach.map (fun e => jsToStringAux true e.1))
termination_by y
decreasing_by
  cases e with
  | mk v hv =>
    simp only
    have h1 : sizeOf v < sizeOf xs := List.sizeOf_lt_of_mem hv
    simp only [YVal.vseq.sizeOf_spec]
    omega

/-- JavaScript String(x) coercion. -/
def jsToString (y : YVal) : String := jsToStringAux false y

/-- The flat cookie mapping collected by the extractor (a JavaScript
object used as a string-keyed dictionary). -/
def CookieMap := String → Option YVal

/-- `cookies[k] = v`. -/
def updCookie (m : CookieMap) (k : String) (v : YVal) : CookieMap :=
  fun q => if q = k then some v else m q

/-- The emptiness test of one forEach step: the record contributes only
when both `cookie.name` and `cookie.value` are truthy. -/
def goodEntry (e : YVal) : Bool :=
  truthyO (e.getKey "name") && truthyO (e.getKey "value")

/-- One forEach step of the extractor: `if (cookie.name && cookie.value)
cookies[cookie.name] = cookie.value`. -/
def collectStep (m : CookieMap) (e : YVal) : CookieMap :=
  if goodEntry e then
    updCookie m (jsToString ((e.getKey "name").getD YVal.vnull))
      ((e.getKey "value").getD YVal.vnull)
  else m

/-- The cookie mapping collected from the sequence of cookie records. -/
def collectCookies (entries : List YVal) : CookieMap :=
  entries.foldl collectStep (fun _ => none)

/-- The fixed key path
`parsedYaml?.private?.[riot-login]?.persist?.session?.cookies`. -/
def navCookies (y : YVal) : Option YVal :=
  optGetKey (optGetKey (optGetKey (optGetKey (y.getKey "private")
    "riot-login") "persist") "session") "cookies"

/-- extractCookiesFromYaml (auth-launch-service.js, lines 107-131).
Descends the fixed path; returns null unless it finds a sequence;
collects name/value pairs of the records (a null record would make the
property access throw, which the surrounding try/catch converts to a
null result); returns the collected mapping only when both mandatory
keys ssid and sub are present and truthy. -/
def extractCookiesFromYaml (parsedYaml : YVal) : Option CookieMap :=
  match navCookies parsedYaml with
  | some (YVal.vseq entries) =>
    if entries.any YVal.isNull then none
    else
      let cookies := collectCookies entries
      if truthyO (cookies "ssid") && truthyO (cookies "sub") then some cookies
      else none
  | _ => none

/-- Lookup of one decoded cookie as a string, for stating round-trip
facts: the value stored under k in the decoded mapping, when the decode
succeeded and the value is a string. -/
def decodeCookieStr (y : YVal) (k : String) : Option String :=
  match extractCookiesFromYaml y with
  | some m =>
    match m k with
    | some (YVal.vstr s) => some s
    | _ => none
  | none => none

/-- The in-memory cookie map handed to the encoder (a JavaScript object
whose fields may be absent). -/
structure Cookies where
  tdid : Option String := none
  ssid : Option String := none
  clid : Option String := none
  sub : Option String := none
  csid : Option String := none
deriving DecidableEq

/-- JavaScript `x || ""` on an optional cookie value. -/
def orEmpty (o : Option String) : String := (o.getD "")

/-- A field read without a default (`cookies.ssid`): undefined becomes
null in the stringified document. -/
def strVal (o : Option String) : YVal :=
  match o with
  | some s => YVal.vstr s
  | none => YVal.vnull

/-- One cookie record of the private-settings document, with the literal
field list of the source (domain, hostOnly, httpOnly, name, path,
persistent, secureOnly, value). -/
def cookieEntry (nm : String) (httpOnly : Bool) (v : YVal) : YVal :=
  YVal.vmap [("domain", YVal.vstr "auth.riotgames.com"),
    ("hostOnly", YVal.vbool true), ("httpOnly", YVal.vbool httpOnly),
    ("name", YVal.vstr nm), ("path", YVal.vstr "/"),
    ("persistent", YVal.vbool true), ("secureOnly", YVal.vbool true),
    ("value", v)]

/-- The five cookie records written by createPrivateSettingsYaml, in
source order: tdid, ssid, clid, sub, csid.  Optional values take the
`|| ""` default; ssid and sub are read without a default. -/
def privateCookieEntries (c : Cookies) : List YVal :=
  [cookieEntry "tdid" true (YVal.vstr (orEmpty c.tdid)),
   cookieEntry "ssid" true (strVal c.ssid),
   cookieEntry "clid" true (YVal.vstr (orEmpty c.clid)),
   cookieEntry "sub" false (strVal c.sub),
   cookieEntry "csid" true (YVal.vstr (orEmpty c.csid))]

/-- createPrivateSettingsYaml (auth-launch-service.js, lines 170-192):
the nested private / riot-login / persist / session / cookies document. -/
def createPrivateSettingsYaml (c : Cookies) : YVal :=
  YVal.vmap [("private", YVal.vmap [("riot-login", YVal.vmap [("persist",
    YVal.vmap [("session", YVal.vmap [("cookies",
      YVal.vseq (privateCookieEntries c))])])])])]

/-- createClientSettingsYaml (auth-launch-service.js, lines 195-209):
region upper-cased with default NA (JavaScript default parameter applies
only to an undefined argument), fixed live patchline. -/
def createClientSettingsYaml (region : Option String)
    (locale : String := "en_US") : YVal :=
  YVal.vmap [("install", YVal.vmap [("globals", YVal.vmap
    [("region", YVal.vstr ((region.getD "NA").toUpper)),
     ("locale", YVal.vstr locale)])]),
    ("patchlines", YVal.vmap [("valorant", YVal.vstr "live")])]

/-! ## Launch orchestrator (auth-launch-service.js launchValorant) -/

/-- Truthiness of an optional JavaScript string field. -/
def truthyS (o : Option String) : Bool :=
  match o with
  | some s => !s.isEmpty
  | none => false

/-- Account metadata as passed to launchValorant. -/
structure AccountMeta where
  id : Option String := none
  username : Option String := none
  region : Option String := none
deriving DecidableEq

/-- Errors thrown by launchValorant, one constructor per throw site.
invalidAccountMetadata and invalidOrMissingCookies are the two
IncompleteAccountData validation failures of the spec taxonomy. -/
inductive LErr where
  | invalidAccountMetadata
  | invalidOrMissingCookies
  | clientNotFound
  | dataDirsNotFound
  | configWriteFailed
  | spawnFailed
deriving DecidableEq

/-- Side effects performed by launchValorant, in order. -/
inductive Eff where
  | closeProcs : Eff
  | mkdirp : String → Eff
  | writeFile : String → YVal → Eff
  | spawnDetached : String → List String → Eff

/-- Outcomes of the external world consulted during a launch: the
resolved Riot Client executable (none when getRiotClientPath throws),
the resolved data/config directories (none when
findCurrentRiotDataPaths throws), and success of each filesystem and
spawn operation. -/
structure LaunchEnv where
  riotClientPath : Option String
  dataPaths : Option (String × String)
  mkdirDataOk : Bool := true
  mkdirConfigOk : Bool := true
  writePrivateOk : Bool := true
  writeClientOk : Bool := true
  spawnOk : Bool := true

/-- launchValorant (auth-launch-service.js, lines 298-354): validate the
account and the cookie record, then close processes, resolve paths,
write both settings files and spawn the client detached.  The returned
list is the trace of performed effects. -/
def launchValorant (env : LaunchEnv) (account : Option AccountMeta)
    (cookies : Option Cookies) : Except LErr Unit × List Eff :=
  match account with
  | none => (Except.error LErr.invalidAccountMetadata, [])
  | some a =>
    if !truthyS a.id then (Except.error LErr.invalidAccountMetadata, [])
    else
      match cookies with
      | none => (Except.error LErr.invalidOrMissingCookies, [])
      | some c =>
        if !truthyS c.ssid || !truthyS c.sub then
          (Except.error LErr.invalidOrMissingCookies, [])
        else
          match env.riotClientPath with
          | none => (Except.error LErr.clientNotFound, [Eff.closeProcs])
          | some exePath =>
            match env.dataPaths with
            | none => (Except.error LErr.dataDirsNotFound, [Eff.closeProcs])
            | some (dataPath, configPath) =>
              if !env.mkdirDataOk then
                (Except.error LErr.configWriteFailed, [Eff.closeProcs])
              else if !env.mkdirConfigOk then
                (Except.error LErr.configWriteFailed,
                  [Eff.closeProcs, Eff.mkdirp dataPath])
              else if !env.writePrivateOk then
                (Except.error LErr.configWriteFailed,
                  [Eff.closeProcs, Eff.mkdirp dataPath, Eff.mkdirp configPath])
              else if !env.writeClientOk then
                (Except.error LErr.configWriteFailed,
                  [Eff.closeProcs, Eff.mkdirp dataPath, Eff.mkdirp configPath,
                   Eff.writeFile (dataPath ++ "/RiotGamesPrivateSettings.yaml")
                     (createPrivateSettingsYaml c)])
              else if !env.spawnOk then
                (Except.error LErr.spawnFailed,
                  [Eff.closeProcs, Eff.mkdirp dataPath, Eff.mkdirp configPath,
                   Eff.writeFile (dataPath ++ "/RiotGamesPrivateSettings.yaml")
                     (createPrivateSettingsYaml c),
                   Eff.writeFile (configPath ++ "/RiotClientSettings.yaml")
                     (createClientSettingsYaml a.region)])
              else
                (Except.ok (),
                  [Eff.closeProcs, Eff.mkdirp dataPath, Eff.mkdirp configPath,
                   Eff.writeFile (dataPath ++ "/RiotGamesPrivateSettings.yaml")
                     (createPrivateSettingsYaml c),
                   Eff.writeFile (configPath ++ "/RiotClientSettings.yaml")
                     (createClientSettingsYaml a.region),
                   Eff.spawnDetached exePath
                     ["--launch-product=valorant", "--launch-patchline=live"]])

/-! ## Riot Client executable discovery (getRiotClientPath) -/

/-- Environment of getRiotClientPath: the parsed content of
RiotClientInstalls.json (none when the file is unreadable or
unparsable) and the fs.access existence oracle. -/
structure RcEnv where
  installData : Option (List (String × YVal))
  fileExists : String → Bool

/-- The two outcomes of getRiotClientPath failing: the non-Windows
guard throw, and the wrapped could-not-find-installation throw. -/
inductive RcErr where
  | notWindows
  | notFound
deriving DecidableEq

/-- The JavaScript startsWith check on the platform identifier, modelled
over the character list so that it is kernel-computable. -/
def jsStartsWith (s p : String) : Bool := p.data.isPrefixOf s.data

/-- Scan of the candidate keys in preference order: a key is taken when
its value is a truthy string (truthy and typeof string) that passes the
existence check; otherwise the next key is tried. -/
def findRcPath (data : List (String × YVal)) (fx : String → Bool) :
    List String → Option String
  | [] => none
  | k :: rest =>
    match lookupStr data k with
    | some (YVal.vstr s) =>
      if !s.isEmpty && fx s then some s else findRcPath data fx rest
    | _ => findRcPath data fx rest

/-- getRiotClientPath (auth-launch-service.js, lines 26-53): throws on a
platform whose identifier does not start with win, otherwise reads the
installs manifest and checks rc_live, rc_default, rc_beta, rc_esports in
order.  The basePath argument of the source is never used. -/
def getRiotClientPath (platform : String) (env : RcEnv)
    (_basePath : Option String := none) : Except RcErr String :=
  if !jsStartsWith platform "win" then Except.error RcErr.notWindows
  else
    match env.installData with
    | none => Except.error RcErr.notFound
    | some data =>
      match findRcPath data env.fileExists
          ["rc_live", "rc_default", "rc_beta", "rc_esports"] with
      | some p => Except.ok p
      | none => Except.error RcErr.notFound

/-! ## Account directory and secure vault (auth-service.js) -/

/-- An account metadata object as stored in the accounts array.  Option
fields model JavaScript object fields that may be absent. -/
structure AccountObj where
  id : String
  username : Option String := none
  region : Option String := none
  puuid : Option String := none
  displayName : Option String := none
  lastUsed : Option Nat := none
  createdAt : Option Nat := none
deriving DecidableEq

/-- One field of a JavaScript object spread `{...a, ...b}`: the field of
b when present, else the field of a. -/
def mergeField {α : Type} (oldF addF : Option α) : Option α :=
  match addF with
  | some v => some v
  | none => oldF

/-- The object spread `{...a, ...b}` on account objects. -/
def spreadMerge (a b : AccountObj) : AccountObj :=
  { id := b.id,
    username := mergeField a.username b.username,
    region := mergeField a.region b.region,
    puuid := mergeField a.puuid b.puuid,
    displayName := mergeField a.displayName b.displayName,
    lastUsed := mergeField a.lastUsed b.lastUsed,
    createdAt := mergeField a.createdAt b.createdAt }

/-- JavaScript `accountData.createdAt || Date.now()` (note that 0 is
falsy). -/
def orNow (o : Option Nat) (now : Nat) : Nat :=
  match o with
  | some t => if t = 0 then now else t
  | none => now

/-- _saveAccount (auth-service.js, lines 617-640): update the first
account with a matching id by `{...existing, ...accountData}`, else push
accountData with a defaulted createdAt. -/
def saveAccount (accounts : List AccountObj) (accountData : AccountObj)
    (now : Nat) : List AccountObj :=
  match accounts with
  | [] => [{ accountData with createdAt := some (orNow accountData.createdAt now) }]
  | a :: rest =>
    if a.id = accountData.id then spreadMerge a accountData :: rest
    else a :: saveAccount rest accountData now

/-- The persisted directory plus the keytar-backed vault, the vault being
an association list from account id to the serialized secret record. -/
structure AuthState where
  accounts : List AccountObj
  vault : List (String × String)

/-- removeAccount (auth-service.js, lines 254-270; also unnamed
part_001, lines 116-126): filter the account out of the directory and
delete its vault entry (keytar.deletePassword). -/
def removeAccount (s : AuthState) (accountId : String) : AuthState :=
  { accounts := s.accounts.filter (fun a => a.id != accountId),
    vault := s.vault.filter (fun e => e.1 != accountId) }

/-- retrieveCookiesSecurely (auth-service.js, lines 673-687):
keytar.getPassword; an absent entry yields null, and the catch branch
also converts any read failure to null rather than an error. -/
def retrieveCookiesSecurely (s : AuthState) (accountId : String) :
    Option String :=
  s.vault.lookup accountId

/-- Whether the directory still lists an account with this id. -/
def hasAccount (s : AuthState) (accountId : String) : Bool :=
  s.accounts.any (fun a => a.id == accountId)

/-! ## Process watcher (main.js startValorantWatcher) -/

/-- Status events sent by the watcher. -/
inductive WEvent where
  | running
  | closed
deriving DecidableEq

/-- The tick loop of startValorantWatcher (main.js, lines 171-194),
folded over the sequence of isValorantRunning observations: the flag is
valorantFound; on the first present observation it emits running; on an
absent observation after a present one it emits closed and stops itself
(the remaining observations are discarded because clearInterval removes
the timer). -/
def watcherLoop : Bool → List Bool → List WEvent
  | _, [] => []
  | found, o :: rest =>
    if o && !found then WEvent.running :: watcherLoop true rest
    else if !o && found then [WEvent.closed]
    else watcherLoop found rest

/-- The events of one watcher execution started with valorantFound =
false. -/
def watcherEvents (obs : List Bool) : List WEvent :=
  watcherLoop false obs

/-- The single watcher slot of main.js: at most one interval timer is
alive, holding the watched account id and the valorantFound flag. -/
structure WatchSys where
  watcher : Option (String × Bool)

/-- Commands driving the watcher subsystem: a launch starting (and
thereby replacing) the watcher for an account, or one timer tick with
the observed process state. -/
inductive WCmd where
  | start : String → WCmd
  | tick : Bool → WCmd
deriving DecidableEq

/-- One step of the watcher subsystem, returning the emitted status
events tagged with the account id they are delivered for.
startValorantWatcher first stops any existing watcher, so start always
installs a fresh watcher for the new account. -/
def wStep (s : WatchSys) : WCmd → WatchSys × List (String × WEvent)
  | WCmd.start a => (⟨some (a, false)⟩, [])
  | WCmd.tick r =>
    match s.watcher with
    | none => (s, [])
    | some (a, found) =>
      if r && !found then (⟨some (a, true)⟩, [(a, WEvent.running)])
      else if !r && found then (⟨none⟩, [(a, WEvent.closed)])
      else (s, [])

/-- Run of the watcher subsystem over a command list, accumulating the
emitted events. -/
def wRun (s : WatchSys) : List WCmd → WatchSys × List (String × WEvent)
  | [] => (s, [])
  | c :: rest =>
    ((wRun (wStep s c).1 rest).1, (wStep s c).2 ++ (wRun (wStep s c).1 rest).2)

/-! ## Theorems -/

theorem lookup_filter_ne (l : List (String × String)) (k : String) :
    (l.filter (fun e => e.1 != k)).lookup k = none := by
  induction l with
  | nil => rfl
  | cons p rest ih =>
    by_cases h : p.1 = k
    · have hb : (p.1 != k) = false := by simp [h]
      simpa [List.filter_cons, hb] using ih
    · have hb : (p.1 != k) = true := by simp [h]
      have hk : (k == p.1) = false := by
        simpa using fun e => h e.symm
      simpa [List.filter_cons, hb, List.lookup, hk] using ih

theorem any_filter_ne (l : List AccountObj) (k : String) :
    ((l.filter (fun a => a.id != k)).any (fun a => a.id == k)) = false := by
  induction l with
  | nil => rfl
  | cons a rest ih =>
    by_cases h : a.id = k
    · have hb : (a.id != k) = false := by simp [h]
      simp [List.filter_cons, hb, ih]
    · have hb : (a.id != k) = true := by simp [h]
      simp [List.filter_cons, List.any, h, hb, ih]

/-- C6: removing an account removes its directory entry and its vault
entry, and a subsequent secure retrieve for that id returns the absent
result (null) rather than an error. -/
theorem removeAccount_deletes_both (s : AuthState) (accountId : String) :
    hasAccount (removeAccount s accountId) accountId = false ∧
    (removeAccount s accountId).vault.lookup accountId = none ∧
    retrieveCookiesSecurely (removeAccount s accountId) accountId = none := by
  refine ⟨?_, ?_, ?_⟩
  · exact any_filter_ne s.accounts accountId
  · exact lookup_filter_ne s.vault accountId
  · exact lookup_filter_ne s.vault accountId

/-- C5 (code bug evidence): _saveAccount claims in its own comment to
preserve createdAt of an existing account, but the object spread puts
accountData last, so the createdAt field supplied by both callers
overwrites the stored one: an account created at 100, re-saved with
accountData carrying createdAt 200, ends up with createdAt 200. -/
theorem saveAccount_overwrites_createdAt :
    (saveAccount [{ id := "acc1", createdAt := some 100 }]
        { id := "acc1", displayName := some "Player#TAG",
          lastUsed := some 200, createdAt := some 200 } 500).map
      AccountObj.createdAt = [some 200] ∧
    (some 200 : Option Nat) ≠ some 100 := by
  exact ⟨rfl, by decide⟩

/-- C4: launching a valid account with a cookie record whose primary
session id (ssid) is missing or empty fails with the
incomplete-account-data validation error, and the effect trace is
empty: no process is closed and neither settings file is written. -/
theorem launchValorant_missing_ssid_no_writes (env : LaunchEnv)
    (a : AccountMeta) (c : Cookies) (hid : truthyS a.id = true)
    (hssid : truthyS c.ssid = false) :
    launchValorant env (some a) (some c)
      = (Except.error LErr.invalidOrMissingCookies, []) := by
  simp [launchValorant, hid, hssid]

/-- C4 witness: a concrete account with id abc123 and a cookie record
holding only sub is rejected before any side effect. -/
theorem launchValorant_missing_ssid_no_writes_witness :
    launchValorant
      { riotClientPath := some "C:/RiotClientServices.exe",
        dataPaths := some ("data", "config") }
      (some { id := some "abc123" }) (some { sub := some "abc123" })
      = (Except.error LErr.invalidOrMissingCookies, []) :=
  launchValorant_missing_ssid_no_writes _ _ _ rfl rfl

/-- C10: on a platform whose identifier does not start with win,
getRiotClientPath always throws, whatever the manifest content, the
filesystem state and the (unused) basePath argument. -/
theorem getRiotClientPath_nonWindows (platform : String) (env : RcEnv)
    (basePath : Option String) (h : jsStartsWith platform "win" = false) :
    getRiotClientPath platform env basePath
      = Except.error RcErr.notWindows := by
  simp [getRiotClientPath, h]

/-- C10 witness: on darwin the detection throws even with an existing
manifest entry pointing at an existing file. -/
theorem getRiotClientPath_nonWindows_witness :
    getRiotClientPath "darwin"
      { installData := some [("rc_live", YVal.vstr "/rc")],
        fileExists := fun _ => true }
      (some "/Applications") = Except.error RcErr.notWindows :=
  getRiotClientPath_nonWindows _ _ _ (by decide)

/-! ### Watcher theorems -/

theorem mem_iff_exists_get (b : Bool) (l : List Bool) :
    b ∈ l ↔ ∃ n, l.get? n = some b := by
  induction l with
  | nil => simp
  | cons a rest ih =>
    constructor
    · intro h
      rcases List.mem_cons.mp h with rfl | hb
      · exact ⟨0, rfl⟩
      · obtain ⟨n, hn⟩ := ih.mp hb
        exact ⟨n + 1, by simpa using hn⟩
    · rintro ⟨n, hn⟩
      cases n with
      | zero =>
        simp only [List.get?_cons_zero, Option.some.injEq] at hn
        exact hn ▸ List.mem_cons_self a rest
      | succ n =>
        exact List.mem_cons_of_mem a (ih.mpr ⟨n, by simpa using hn⟩)

theorem watcherLoop_true (obs : List Bool) :
    watcherLoop true obs = if false ∈ obs then [WEvent.closed] else [] := by
  induction obs with
  | nil => simp [watcherLoop]
  | cons o rest ih =>
    cases o
    · simp [watcherLoop]
    · simpa [watcherLoop] using ih

theorem watcherEvents_cons_false (rest : List Bool) :
    watcherEvents (false :: rest) = watcherEvents rest := by
  simp [watcherEvents, watcherLoop]

theorem watcherEvents_cons_true (rest : List Bool) :
    watcherEvents (true :: rest)
      = WEvent.running :: watcherLoop true rest := by
  simp [watcherEvents, watcherLoop]

theorem watcherEvents_shape (obs : List Bool) :
    watcherEvents obs = [] ∨ watcherEvents obs = [WEvent.running] ∨
      watcherEvents obs = [WEvent.running, WEvent.closed] := by
  induction obs with
  | nil => exact Or.inl rfl
  | cons o rest ih =>
    cases o
    · rw [watcherEvents_cons_false]; exact ih
    · rw [watcherEvents_cons_true, watcherLoop_true]
      by_cases h : false ∈ rest
      · exact Or.inr (Or.inr (by simp [h]))
      · exact Or.inr (Or.inl (by simp [h]))

theorem running_mem_watcherEvents (obs : List Bool) :
    WEvent.running ∈ watcherEvents obs ↔ true ∈ obs := by
  induction obs with
  | nil => simp [watcherEvents, watcherLoop]
  | cons o rest ih =>
    cases o
    · rw [watcherEvents_cons_false]
      simpa using ih
    · rw [watcherEvents_cons_true]
      simp

theorem closed_mem_watcherEvents (obs : List Bool) :
    WEvent.closed ∈ watcherEvents obs ↔
      ∃ i j, i < j ∧ obs.get? i = some true ∧ obs.get? j = some false := by
  induction obs with
  | nil => simp [watcherEvents, watcherLoop]
  | cons o rest ih =>
    cases o
    · rw [watcherEvents_cons_false, ih]
      constructor
      · rintro ⟨i, j, hij, hi, hj⟩
        exact ⟨i + 1, j + 1, by omega, by simpa using hi, by simpa using hj⟩
      · rintro ⟨i, j, hij, hi, hj⟩
        cases i with
        | zero => simp at hi
        | succ i =>
          cases j with
          | zero => omega
          | succ j =>
            exact ⟨i, j, by omega, by simpa using hi, by simpa using hj⟩
    · rw [watcherEvents_cons_true, watcherLoop_true]
      constructor
      · intro hmem
        rcases List.mem_cons.mp hmem with h | h
        · exact absurd h (by decide)
        · by_cases hf : false ∈ rest
          · obtain ⟨n, hn⟩ := (mem_iff_exists_get false rest).mp hf
            exact ⟨0, n + 1, Nat.succ_pos n, rfl, by simpa using hn⟩
          · simp [hf] at h
      · rintro ⟨i, j, hij, hi, hj⟩
        cases j with
        | zero => simp at hj
        | succ j =>
          have hf : false ∈ rest :=
            (mem_iff_exists_get false rest).mpr ⟨j, by simpa using hj⟩
          simp [hf]

/-- C7: in one watcher execution the event trace is empty, just running,
or running followed by closed (so closed never precedes running and
nothing follows closed, the watcher having stopped itself); running is
emitted exactly when some tick observes the process present; closed is
emitted exactly when a tick observes the process absent strictly after
an earlier tick observed it present. -/
theorem watcher_status_protocol (obs : List Bool) :
    (watcherEvents obs = [] ∨ watcherEvents obs = [WEvent.running] ∨
      watcherEvents obs = [WEvent.running, WEvent.closed]) ∧
    (WEvent.running ∈ watcherEvents obs ↔ true ∈ obs) ∧
    (WEvent.closed ∈ watcherEvents obs ↔
      ∃ i j, i < j ∧ obs.get? i = some true ∧ obs.get? j = some false) :=
  ⟨watcherEvents_shape obs, running_mem_watcherEvents obs,
    closed_mem_watcherEvents obs⟩

theorem wRun_append_start (s : WatchSys) (l : List WCmd) (a : String) :
    (wRun s (l ++ [WCmd.start a])).1 = ⟨some (a, false)⟩ := by
  induction l generalizing s with
  | nil => rfl
  | cons c rest ih =>
    simp only [List.cons_append, wRun]
    exact ih _

theorem wRun_no_foreign_events (a1 : String) (cmds : List WCmd)
    (s : WatchSys) (hs : ∀ b, s.watcher = some b → b.1 ≠ a1)
    (hns : WCmd.start a1 ∉ cmds) :
    ∀ e ∈ (wRun s cmds).2, e.1 ≠ a1 := by
  induction cmds generalizing s with
  | nil => intro e he; simp [wRun] at he
  | cons c rest ih =>
    intro e he
    have hc : c ≠ WCmd.start a1 := fun h => hns (h ▸ List.mem_cons_self c rest)
    have hrest : WCmd.start a1 ∉ rest := fun h => hns (List.mem_cons_of_mem c h)
    simp only [wRun, List.mem_append] at he
    rcases he with h | h
    · cases c with
      | start b => simp [wStep] at h
      | tick r =>
        rcases hw : s.watcher with _ | ab
        · simp [wStep, hw] at h
        · rcases ab with ⟨a, found⟩
          have ha : a ≠ a1 := hs (a, found) hw
          cases r <;> cases found <;> simp [wStep, hw] at h <;>
            (subst h; simpa using ha)
    · cases c with
      | start b =>
        have hb : b ≠ a1 := fun hba => hc (by rw [hba])
        refine ih (⟨some (b, false)⟩ : WatchSys) (fun p hp => ?_) hrest e h
        simp only at hp
        injection hp with hp2
        rw [← hp2]
        exact hb
      | tick r =>
        rcases hw : s.watcher with _ | ab
        · exact ih s hs hrest e (by simpa [wStep, hw] using h)
        · rcases ab with ⟨a, found⟩
          have ha : a ≠ a1 := hs (a, found) hw
          cases r <;> cases found
          · exact ih s hs hrest e (by simpa [wStep, hw] using h)
          · refine ih ⟨none⟩ (fun p hp => ?_) hrest e
              (by simpa [wStep, hw] using h)
            simp at hp
          · refine ih ⟨some (a, true)⟩ (fun p hp => ?_) hrest e
              (by simpa [wStep, hw] using h)
            simp only at hp
            injection hp with hp2
            rw [← hp2]
            exact ha
          · exact ih s hs hrest e (by simpa [wStep, hw] using h)

/-- C8: after a second launch installs the watcher for a different
account, no status event for the first account id is emitted by any
later tick, however the earlier command history went (the single
watcher slot holds at most one active watcher, and start replaces it). -/
theorem second_launch_stops_first_account_events (pre cmds : List WCmd)
    (a1 a2 : String) (hne : a1 ≠ a2) (hns : WCmd.start a1 ∉ cmds) :
    ∀ e ∈ (wRun (wRun ⟨none⟩ (pre ++ [WCmd.start a2])).1 cmds).2,
      e.1 ≠ a1 := by
  rw [wRun_append_start]
  refine wRun_no_foreign_events a1 cmds ⟨some (a2, false)⟩ ?_ hns
  intro b hb
  simp only at hb
  injection hb with hb2
  rw [← hb2]
  exact hne.symm

/-- C8 witness: with the watcher replaced for acct2 and two further
ticks (process seen present then absent), no event is delivered for
acct1. -/
theorem second_launch_stops_first_account_events_witness :
    ("acct1", WEvent.running) ∉
      (wRun (wRun ⟨none⟩ ([] ++ [WCmd.start "acct2"])).1
        [WCmd.tick true, WCmd.tick false]).2 :=
  fun hmem =>
    second_launch_stops_first_account_events [] [WCmd.tick true, WCmd.tick false]
      "acct1" "acct2" (by decide) (by decide) ("acct1", WEvent.running) hmem rfl

/-! ### Codec theorems -/

@[simp] theorem jsToStringAux_vstr (b : Bool) (s : String) :
    jsToStringAux b (YVal.vstr s) = s := by
  simp [jsToStringAux]

@[simp] theorem jsToString_vstr (s : String) :
    jsToString (YVal.vstr s) = s := by
  simp [jsToString]

theorem cookieEntry_getKey_name (nm : String) (ho : Bool) (v : YVal) :
    (cookieEntry nm ho v).getKey "name" = some (YVal.vstr nm) := rfl

theorem cookieEntry_getKey_value (nm : String) (ho : Bool) (v : YVal) :
    (cookieEntry nm ho v).getKey "value" = some v := rfl

theorem collectStep_apply_ne (m : CookieMap) (nm : String) (ho : Bool)
    (v : YVal) (q : String) (h : q ≠ nm) :
    collectStep m (cookieEntry nm ho v) q = m q := by
  by_cases hg : goodEntry (cookieEntry nm ho v) = true
  · simp [collectStep, hg, updCookie, cookieEntry_getKey_name,
      cookieEntry_getKey_value, h]
  · simp [collectStep, hg]

theorem collectStep_apply_bad (m : CookieMap) (e : YVal) (q : String)
    (hg : goodEntry e = false) : collectStep m e q = m q := by
  simp [collectStep, hg]

theorem collectStep_apply_self (m : CookieMap) (nm : String) (ho : Bool)
    (x : String) (hnm : nm.isEmpty = false) (hx : x.isEmpty = false) :
    collectStep m (cookieEntry nm ho (YVal.vstr x)) nm
      = some (YVal.vstr x) := by
  have hg : goodEntry (cookieEntry nm ho (YVal.vstr x)) = true := by
    simp [goodEntry, cookieEntry_getKey_name, cookieEntry_getKey_value,
      truthyO, YVal.truthy, hnm, hx]
  simp [collectStep, hg, updCookie, cookieEntry_getKey_name,
    cookieEntry_getKey_value]

theorem collect_private_ssid (c : Cookies) (s : String)
    (hs : c.ssid = some s) (hse : s.isEmpty = false) :
    collectCookies (privateCookieEntries c) "ssid"
      = some (YVal.vstr s) := by
  simp only [collectCookies, privateCookieEntries, List.foldl_cons,
    List.foldl_nil, hs, strVal]
  rw [collectStep_apply_ne _ _ _ _ _ (by decide),
    collectStep_apply_ne _ _ _ _ _ (by decide),
    collectStep_apply_ne _ _ _ _ _ (by decide),
    collectStep_apply_self _ _ _ _ (by decide) hse]

theorem collect_private_sub (c : Cookies) (u : String)
    (hu : c.sub = some u) (hue : u.isEmpty = false) :
    collectCookies (privateCookieEntries c) "sub"
      = some (YVal.vstr u) := by
  simp only [collectCookies, privateCookieEntries, List.foldl_cons,
    List.foldl_nil, hu, strVal]
  rw [collectStep_apply_ne _ _ _ _ _ (by decide),
    collectStep_apply_self _ _ _ _ (by decide) hue]

theorem extract_private (c : Cookies) (s u : String)
    (hs : c.ssid = some s) (hse : s.isEmpty = false)
    (hu : c.sub = some u) (hue : u.isEmpty = false) :
    extractCookiesFromYaml (createPrivateSettingsYaml c)
      = some (collectCookies (privateCookieEntries c)) := by
  have hnav : navCookies (createPrivateSettingsYaml c)
      = some (YVal.vseq (privateCookieEntries c)) := rfl
  have hnull : (privateCookieEntries c).any YVal.isNull = false := rfl
  simp [extractCookiesFromYaml, hnav, hnull,
    collect_private_ssid c s hs hse, collect_private_sub c u hu hue,
    truthyO, YVal.truthy, hse, hue]

/-- C1: encoding a cookie map with non-empty ssid and sub into the
private-settings document and decoding it back recovers the ssid and
sub values unchanged, and the decode does not return null. -/
theorem roundtrip_ssid_sub (c : Cookies) (s u : String)
    (hs : c.ssid = some s) (hse : s.isEmpty = false)
    (hu : c.sub = some u) (hue : u.isEmpty = false) :
    extractCookiesFromYaml (createPrivateSettingsYaml c) ≠ none ∧
    decodeCookieStr (createPrivateSettingsYaml c) "ssid" = some s ∧
    decodeCookieStr (createPrivateSettingsYaml c) "sub" = some u := by
  have hx := extract_private c s u hs hse hu hue
  refine ⟨by simp [hx], ?_, ?_⟩
  · simp [decodeCookieStr, hx, collect_private_ssid c s hs hse]
  · simp [decodeCookieStr, hx, collect_private_sub c u hu hue]

/-- C1 witness: the concrete secret record with ssid S1 and sub U1
round-trips through the private document. -/
theorem roundtrip_ssid_sub_witness :
    extractCookiesFromYaml (createPrivateSettingsYaml
      { ssid := some "S1", sub := some "U1" }) ≠ none ∧
    decodeCookieStr (createPrivateSettingsYaml
      { ssid := some "S1", sub := some "U1" }) "ssid" = some "S1" ∧
    decodeCookieStr (createPrivateSettingsYaml
      { ssid := some "S1", sub := some "U1" }) "sub" = some "U1" :=
  roundtrip_ssid_sub _ "S1" "U1" rfl rfl rfl rfl

/-- C2: the decoder returns null (and, being a total function of the
parsed document, never throws) on a null document, on a document where
the fixed nested path is absent, on one where the path holds a
non-sequence, and on one where the collected cookies lack a truthy ssid
or a truthy sub. -/
theorem extract_null_cases (y : YVal)
    (h : y = YVal.vnull ∨ navCookies y = none ∨
      (∃ v, navCookies y = some v ∧ v.isSeq = false) ∨
      (∃ es, navCookies y = some (YVal.vseq es) ∧
        (truthyO (collectCookies es "ssid") = false ∨
         truthyO (collectCookies es "sub") = false))) :
    extractCookiesFromYaml y = none := by
  rcases h with rfl | h | ⟨v, hv, hseq⟩ | ⟨es, hes, hcond⟩
  · rfl
  · simp [extractCookiesFromYaml, h]
  · cases v with
    | vseq es => simp [YVal.isSeq] at hseq
    | vnull => simp [extractCookiesFromYaml, hv]
    | vstr s => simp [extractCookiesFromYaml, hv]
    | vbool b => simp [extractCookiesFromYaml, hv]
    | vmap kvs => simp [extractCookiesFromYaml, hv]
  · rcases hcond with hc | hc <;> simp [extractCookiesFromYaml, hes, hc]

/-- C2 witness: the empty mapping (a document missing the nested path)
decodes to null. -/
theorem extract_null_cases_witness :
    extractCookiesFromYaml (YVal.vmap []) = none :=
  extract_null_cases (YVal.vmap []) (Or.inr (Or.inl rfl))

theorem foldl_collectStep_filter (entries : List YVal) (m : CookieMap) :
    List.foldl collectStep m entries
      = List.foldl collectStep m (entries.filter goodEntry) := by
  induction entries generalizing m with
  | nil => rfl
  | cons e rest ih =>
    by_cases hg : goodEntry e = true
    · simp [List.filter_cons, hg, List.foldl_cons, ih]
    · have hg2 : goodEntry e = false := by simpa using hg
      simp [List.filter_cons, hg2, List.foldl_cons, collectStep, ih]

/-- C9: collection skips every cookie record whose name or value is not
truthy (absent or empty string), so the collected mapping equals the
one collected from only the good records; consequently the document
whose five entries are all present but whose ssid entry carries the
empty string decodes to null. -/
theorem extract_skips_falsy_entries :
    (∀ entries : List YVal, entries.any YVal.isNull = false →
      collectCookies entries
        = collectCookies (entries.filter goodEntry)) ∧
    extractCookiesFromYaml (createPrivateSettingsYaml
      { ssid := some "", sub := some "U1" }) = none := by
  constructor
  · intro entries _
    exact foldl_collectStep_filter entries _
  · have hssid : collectCookies (privateCookieEntries
        { ssid := some "", sub := some "U1" }) "ssid" = none := by
      simp only [collectCookies, privateCookieEntries, List.foldl_cons,
        List.foldl_nil]
      rw [collectStep_apply_ne _ _ _ _ _ (by decide),
        collectStep_apply_ne _ _ _ _ _ (by decide),
        collectStep_apply_ne _ _ _ _ _ (by decide),
        collectStep_apply_bad _ _ _ (by decide),
        collectStep_apply_ne _ _ _ _ _ (by decide)]
    have hnav : navCookies (createPrivateSettingsYaml
        { ssid := some "", sub := some "U1" })
        = some (YVal.vseq (privateCookieEntries
          { ssid := some "", sub := some "U1" })) := rfl
    have hnull : (privateCookieEntries
        { ssid := some "", sub := some "U1" }).any YVal.isNull = false := rfl
    simp [extractCookiesFromYaml, hnav, hnull, hssid, truthyO]

/-- C9 witness: a single record with name ssid but empty value is
skipped, so collecting it equals collecting the empty good sublist. -/
theorem extract_skips_falsy_entries_witness :
    collectCookies [cookieEntry "ssid" true (YVal.vstr "")]
      = collectCookies
        ([cookieEntry "ssid" true (YVal.vstr "")].filter goodEntry) :=
  extract_skips_falsy_entries.1 [cookieEntry "ssid" true (YVal.vstr "")] rfl

/-! ### Shape of the encoded private-settings document (C3) -/

/-- The name field of a cookie record, when it is a string. -/
def entryNameStr (e : YVal) : Option String :=
  match e.getKey "name" with
  | some (YVal.vstr s) => some s
  | _ => none

/-- The value field of a cookie record, when it is a string. -/
def entryValueStr (e : YVal) : Option String :=
  match e.getKey "value" with
  | some (YVal.vstr s) => some s
  | _ => none

/-- The domain field of a cookie record, when it is a string. -/
def entryDomainStr (e : YVal) : Option String :=
  match e.getKey "domain" with
  | some (YVal.vstr s) => some s
  | _ => none

/-- The httpOnly flag of a cookie record, when it is a boolean. -/
def entryHttpOnly (e : YVal) : Option Bool :=
  match e.getKey "httpOnly" with
  | some (YVal.vbool b) => some b
  | _ => none

/-- The names of the encoded cookie records, in document order. -/
def entryNames (c : Cookies) : List (Option String) :=
  (privateCookieEntries c).map entryNameStr

/-- The domains of the encoded cookie records. -/
def entryDomains (c : Cookies) : List (Option String) :=
  (privateCookieEntries c).map entryDomainStr

/-- The httpOnly flags of the encoded cookie records. -/
def entryHttpOnlys (c : Cookies) : List (Option Bool) :=
  (privateCookieEntries c).map entryHttpOnly

/-- The values of the encoded cookie records. -/
def entryValues (c : Cookies) : List (Option String) :=
  (privateCookieEntries c).map entryValueStr

/-- How many encoded records other than ssid and sub carry
httpOnly = true (the auxiliary identifiers marked httpOnly). -/
def auxHttpOnlyCount (c : Cookies) : Nat :=
  ((privateCookieEntries c).filter (fun e =>
    (entryHttpOnly e == some true) && !(entryNameStr e == some "ssid")
      && !(entryNameStr e == some "sub"))).length

/-- C3 counterexample: in the encoded document all three auxiliary ids
(tdid, clid, csid) are httpOnly, not two as claimed: already on a
concrete cookie map the count of httpOnly records besides ssid and sub
is 3, which is not 2. -/
theorem three_aux_ids_httpOnly :
    auxHttpOnlyCount { ssid := some "S1", sub := some "U1" } = 3 ∧
    (3 : Nat) ≠ 2 := by
  exact ⟨rfl, by decide⟩

/-- C3 (amended): for a cookie map with ssid and sub set, the encoded
document holds under the fixed path exactly five records named tdid,
ssid, clid, sub, csid, each with literal domain auth.riotgames.com;
the optional values are encoded through the empty-string default
(orEmpty, which maps an absent value to the empty string rather than
omitting the record); and the httpOnly flags are true for ssid and for
all three auxiliary ids while sub is not httpOnly. -/
theorem createPrivateSettings_structure (c : Cookies) (s u : String)
    (hs : c.ssid = some s) (hu : c.sub = some u) :
    navCookies (createPrivateSettingsYaml c)
      = some (YVal.vseq (privateCookieEntries c)) ∧
    (privateCookieEntries c).length = 5 ∧
    entryNames c = [some "tdid", some "ssid", some "clid", some "sub",
      some "csid"] ∧
    entryDomains c = List.replicate 5 (some "auth.riotgames.com") ∧
    entryHttpOnlys c = [some true, some true, some true, some false,
      some true] ∧
    entryValues c = [some (orEmpty c.tdid), some s, some (orEmpty c.clid),
      some u, some (orEmpty c.csid)] ∧
    orEmpty none = "" := by
  refine ⟨rfl, rfl, rfl, rfl, rfl, ?_, rfl⟩
  simp [entryValues, privateCookieEntries, entryValueStr,
    cookieEntry_getKey_value, hs, hu, strVal]

/-- C3 witness: on a concrete cookie map with only ssid and sub, the
flag list is as the amended claim states. -/
theorem createPrivateSettings_structure_witness :
    entryHttpOnlys { ssid := some "S1", sub := some "U1" }
      = [some true, some true, some true, some false, some true] :=
  (createPrivateSettings_structure
    { ssid := some "S1", sub := some "U1" } "S1" "U1" rfl rfl).2.2.2.2.1

end Nebula
